import Mathlib

/-!
Verification development for the SSH batch tool (`ssh_batch_tool/main_gui.py`).

The definitions below are a shallow embedding of the core worker logic of
`SSHWorker`, of the dispatch loop of `ModernGUI.run_thread`, and of the ANSI
renderer `AnsiColorHandler.insert_ansi_text`.  Pure Python string operations
are translated to executable Lean functions over `List Char`; the effects of
the network (connection outcomes, bytes read from the interactive shell,
command failures) are passed in explicitly through an `Env` record.
-/

/-! ## Python value model for credential inputs -/

/-- A Python scalar that may appear as a credential entry in the YAML config
or the host record: a string or an integer (`str(item)` is its textual form). -/
inductive PyScalar
  | s (v : String)
  | i (n : Int)
deriving DecidableEq

/-- Python `str(item)` for the scalars we model. -/
def pyStr : PyScalar → String
  | .s v => v
  | .i n => toString n

/-- Python `str.strip()`: drop whitespace from both ends. -/
def pyStrip (s : String) : String :=
  String.mk (((s.data.dropWhile Char.isWhitespace).reverse.dropWhile Char.isWhitespace).reverse)

/-- Python `str.lower()` for the alphabets involved here: lower-case every
character. -/
def pyLower (s : String) : String := String.mk (s.data.map Char.toLower)

/-- The raw shape of a credential field: absent (`None`), a single scalar, or
a list whose entries may themselves be `None`.  Mirrors what
`SSHWorker.ensure_str_list` accepts (main_gui.py:99-102). -/
inductive RawCred
  | absent
  | scalar (v : PyScalar)
  | list (items : List (Option PyScalar))

/-- One element of the comprehension in `ensure_str_list`:
`str(item).strip()` kept only when the item is not `None` and the stripped
text is non-empty. -/
def normItem : Option PyScalar → Option String
  | Option.none => Option.none
  | Option.some v =>
    if pyStrip (pyStr v) = "" then Option.none else Option.some (pyStrip (pyStr v))

/-- `SSHWorker.ensure_str_list` (main_gui.py:99-102):
`None → []`; a non-list is wrapped in a one-element list; then
`[str(item).strip() for item in raw_data if item is not None and str(item).strip()]`. -/
def ensure_str_list : RawCred → List String
  | .absent => []
  | .scalar v => [Option.some v].filterMap normItem
  | .list items => items.filterMap normItem

/-- Order-preserving first-occurrence deduplication with an accumulator of
already seen values; `dedupFirst` below models Python
`list(dict.fromkeys(xs))`. -/
def dedupFirstAux (seen : List String) : List String → List String
  | [] => []
  | x :: xs =>
    if seen.contains x then dedupFirstAux seen xs
    else x :: dedupFirstAux (x :: seen) xs

/-- Python `list(dict.fromkeys(xs))`: keep the first occurrence of each value,
in order (main_gui.py:111,114). -/
def dedupFirst (l : List String) : List String := dedupFirstAux [] l

/-- Credential merge from `SSHWorker.run` (main_gui.py:109-114):
`list(dict.fromkeys(host_pwds + default_pwds))` — host-specific candidates
first, then defaults, deduplicated keeping the first occurrence. -/
def resolveCreds (host dflt : RawCred) : List String :=
  dedupFirst (ensure_str_list host ++ ensure_str_list dflt)

/-! ## Lemmas about normalization and deduplication -/

theorem dedupFirstAux_mem (v : String) :
    ∀ (l seen : List String), v ∈ dedupFirstAux seen l ↔ v ∈ l ∧ v ∉ seen := by
  intro l
  induction l with
  | nil => intro seen; simp [dedupFirstAux]
  | cons x xs ih =>
    intro seen
    by_cases hx : seen.contains x
    · rw [dedupFirstAux, if_pos hx, ih]
      have hxseen : x ∈ seen := by
        simpa using hx
      constructor
      · rintro ⟨h1, h2⟩; exact ⟨List.mem_cons_of_mem x h1, h2⟩
      · rintro ⟨h1, h2⟩
        rcases List.mem_cons.mp h1 with h | h
        · exact absurd (h ▸ hxseen) h2
        · exact ⟨h, h2⟩
    · rw [dedupFirstAux, if_neg hx]
      rw [List.mem_cons, ih]
      constructor
      · rintro (rfl | ⟨h1, h2⟩)
        · refine ⟨by simp, ?_⟩
          simpa using hx
        · constructor
          · exact List.mem_cons_of_mem x h1
          · intro hv; exact h2 (List.mem_cons_of_mem x hv)
      · rintro ⟨h1, h2⟩
        rcases List.mem_cons.mp h1 with h | h
        · exact Or.inl h
        · by_cases hvx : v = x
          · exact Or.inl hvx
          · exact Or.inr ⟨h, by simp [List.mem_cons, hvx, h2]⟩

theorem dedupFirstAux_nodup : ∀ (l seen : List String), (dedupFirstAux seen l).Nodup := by
  intro l
  induction l with
  | nil => intro seen; simp [dedupFirstAux]
  | cons x xs ih =>
    intro seen
    by_cases hx : seen.contains x
    · rw [dedupFirstAux, if_pos hx]; exact ih seen
    · rw [dedupFirstAux, if_neg hx]
      refine List.nodup_cons.mpr ⟨?_, ih (x :: seen)⟩
      intro hmem
      have := (dedupFirstAux_mem x xs (x :: seen)).mp hmem
      exact this.2 (List.mem_cons_self x seen)

theorem dedupFirstAux_sublist : ∀ (l seen : List String), List.Sublist (dedupFirstAux seen l) l := by
  intro l
  induction l with
  | nil => intro seen; simp [dedupFirstAux]
  | cons x xs ih =>
    intro seen
    by_cases hx : seen.contains x
    · rw [dedupFirstAux, if_pos hx]
      exact List.Sublist.cons x (ih seen)
    · rw [dedupFirstAux, if_neg hx]
      exact List.Sublist.cons₂ x (ih (x :: seen))

theorem dedupFirstAux_append : ∀ (l₁ : List String) (seen : List String) (l₂ : List String),
    ∃ r, dedupFirstAux seen (l₁ ++ l₂) = dedupFirstAux seen l₁ ++ r := by
  intro l₁
  induction l₁ with
  | nil => intro seen l₂; exact ⟨dedupFirstAux seen l₂, by simp [dedupFirstAux]⟩
  | cons x xs ih =>
    intro seen l₂
    by_cases hx : seen.contains x
    · rw [List.cons_append, dedupFirstAux, if_pos hx, dedupFirstAux, if_pos hx]
      exact ih seen l₂
    · rw [List.cons_append, dedupFirstAux, if_neg hx, dedupFirstAux, if_neg hx]
      obtain ⟨r, hr⟩ := ih (x :: seen) l₂
      exact ⟨r, by rw [hr, List.cons_append]⟩

/-- `dedupFirst l₁` is a prefix of `dedupFirst (l₁ ++ l₂)`: values merged from
the first list keep their (earlier) positions. -/
theorem dedupFirst_append_isPrefix (l₁ l₂ : List String) :
    List.IsPrefix (dedupFirst l₁) (dedupFirst (l₁ ++ l₂)) := by
  obtain ⟨r, hr⟩ := dedupFirstAux_append l₁ [] l₂
  exact ⟨r, hr.symm⟩

/-! ## Substring search and ANSI escape stripping -/

/-- Boolean substring test at the character-list level (Python `pat in s`,
`re.search` with a literal pattern). -/
def hasSub (pat : List Char) : List Char → Bool
  | [] => pat.isEmpty
  | c :: cs => pat.isPrefixOf (c :: cs) || hasSub pat cs

/-- Python `pat in s` / `re.search(pat, s)` for a literal `pat`. -/
def containsStr (s pat : String) : Bool := hasSub pat.data s.data

/-- Python `t.startswith(pre)`. -/
def pyStartsWith (t pre : String) : Bool := pre.data.isPrefixOf t.data

/-- Characters allowed in the parameter part of the stripped escapes:
the `[0-9;]*` class of the regular expression. -/
def isParamChar (c : Char) : Bool := c.isDigit || c = ';'

/-- Scanner state while matching `\x1b\[[0-9;]*` prefixes. -/
inductive CsiState
  | normal
  | afterEsc
  | inParams (revParams : List Char)

/-- The terminal escape character `\x1b`. -/
def escChar : Char := Char.ofNat 27

/-- Character-level scan implementing
`re.sub(r'\x1b\[[0-9;]*[mK]', '', s)` (main_gui.py:96,169,185):
a full match `ESC [ params (m|K)` is deleted; any other text, including an
`ESC [` group not terminated by `m`/`K`, is kept verbatim. -/
def stripScan : CsiState → List Char → List Char
  | .normal, [] => []
  | .afterEsc, [] => [escChar]
  | .inParams rp, [] => escChar :: '[' :: rp.reverse
  | .normal, c :: cs =>
    if c = escChar then stripScan .afterEsc cs else c :: stripScan .normal cs
  | .afterEsc, c :: cs =>
    if c = '[' then stripScan (.inParams []) cs
    else if c = escChar then escChar :: stripScan .afterEsc cs
    else escChar :: c :: stripScan .normal cs
  | .inParams rp, c :: cs =>
    if isParamChar c then stripScan (.inParams (c :: rp)) cs
    else if c = 'm' ∨ c = 'K' then stripScan .normal cs
    else if c = escChar then (escChar :: '[' :: rp.reverse) ++ stripScan .afterEsc cs
    else (escChar :: '[' :: rp.reverse) ++ (c :: stripScan .normal cs)

/-- `re.sub(r'\x1b\[[0-9;]*[mK]', '', s)`: remove color and line-clear
escape sequences. -/
def stripAnsi (s : String) : String := String.mk (stripScan .normal s.data)

/-! ## Authentication engine: `SSHWorker._connect` -/

/-- Outcome of one `paramiko` connect attempt.  The code catches every
exception class alike (`except: continue`), so an authentication rejection
and any other error (network unreachable, protocol failure) both advance to
the next candidate. -/
inductive ConnOutcome
  | ok
  | authReject
  | otherError
deriving DecidableEq

/-- `SSHWorker._connect` (main_gui.py:146-155): try each password in order;
return on the first successful attempt; any failing attempt advances to the
next candidate; return `False` after the last candidate.  The result pairs
the number of connect calls made with the success flag. -/
def connectLoop (auth : String → ConnOutcome) : List String → Nat × Bool
  | [] => (0, false)
  | p :: ps =>
    if auth p = ConnOutcome.ok then (1, true)
    else ((connectLoop auth ps).1 + 1, (connectLoop auth ps).2)

theorem connectLoop_success_at (auth : String → ConnOutcome) :
    ∀ (pwds : List String) (k : Nat) (hk : k < pwds.length),
      (∀ i (hi : i < k), auth (pwds.get ⟨i, Nat.lt_trans hi hk⟩) ≠ ConnOutcome.ok) →
      auth (pwds.get ⟨k, hk⟩) = ConnOutcome.ok →
      connectLoop auth pwds = (k + 1, true) := by
  intro pwds
  induction pwds with
  | nil => intro k hk; exact absurd hk (Nat.not_lt_zero k)
  | cons p ps ih =>
    intro k hk hbefore hok
    cases k with
    | zero =>
      simp only [List.get] at hok
      simp [connectLoop, hok]
    | succ k' =>
      have hp : ¬(auth p = ConnOutcome.ok) := by
        have := hbefore 0 (Nat.succ_pos k')
        simpa [List.get] using this
      have hk' : k' < ps.length := Nat.lt_of_succ_lt_succ hk
      have hrec := ih k' hk'
        (fun i hi => by simpa [List.get] using hbefore (i + 1) (Nat.succ_lt_succ hi))
        (by simpa [List.get] using hok)
      simp [connectLoop, hp, hrec]

theorem connectLoop_exhaust (auth : String → ConnOutcome) :
    ∀ (pwds : List String), (∀ p ∈ pwds, auth p ≠ ConnOutcome.ok) →
      connectLoop auth pwds = (pwds.length, false) := by
  intro pwds
  induction pwds with
  | nil => intro _; rfl
  | cons p ps ih =>
    intro h
    have hp : ¬(auth p = ConnOutcome.ok) := h p (List.mem_cons_self p ps)
    have hrec := ih (fun q hq => h q (List.mem_cons_of_mem p hq))
    simp [connectLoop, hp, hrec]

/-! ## Privilege escalation: `SSHWorker._switch_to_root` -/

/-- The localized failure keywords of the outcome check regular expression
`(failure|认证失败|鉴定故障|incorrect)` with `re.IGNORECASE`
(main_gui.py:184,186). -/
def failKeywords : List String := ["failure", "认证失败", "鉴定故障", "incorrect"]

/-- Case-insensitive search for any failure keyword in the cleaned chunk. -/
def hasFailKeyword (clean : String) : Bool :=
  failKeywords.any (fun k => containsStr (pyLower clean) k)

/-- The outcome test of `_switch_to_root` (main_gui.py:185-186): after
stripping color/clear escapes, escalation succeeded exactly when the cleaned
chunk contains `#` and contains no failure keyword. -/
def suSuccessChunk (rawOut : String) : Bool :=
  containsStr (stripAnsi rawOut) "#" && !(hasFailKeyword (stripAnsi rawOut))

/-- Observable actions of the candidate loop in `_switch_to_root`:
sending a password, or re-issuing `su -` after a failed candidate. -/
inductive SuAction
  | sendPwd (p : String)
  | resendSu
deriving DecidableEq

/-- The candidate loop of `_switch_to_root` (main_gui.py:182-188): send the
next untried password, read a chunk (`reads i` is the chunk read after the
`i`-th password), succeed on a positive outcome test, otherwise re-issue
`su -` and continue with the next candidate; after the last candidate the
loop falls through to `return False`.  Returns the success flag together
with the ordered trace of actions. -/
def suLoopTrace (reads : Nat → String) : List String → Nat → Bool × List SuAction
  | [], _ => (false, [])
  | p :: rest, i =>
    if suSuccessChunk (reads i) then (true, [SuAction.sendPwd p])
    else ((suLoopTrace reads rest (i + 1)).1,
          SuAction.sendPwd p :: SuAction.resendSu :: (suLoopTrace reads rest (i + 1)).2)

/-! ## The worker environment -/

/-- Everything the remote side contributes to one worker run: the outcome of
a connect attempt per password, the output of `whoami` (`none` models the
exception path that yields `"unknown"`), whether the `su` password prompt
pattern was observed, the chunk read after each escalation password, and
whether the `i`-th command raised. -/
structure Env where
  auth : String → ConnOutcome
  whoamiRaw : Option String
  promptSeen : Bool
  suRead : Nat → String
  cmdFails : Nat → Bool

/-- `SSHWorker._get_whoami` (main_gui.py:157-161): the stripped `whoami`
output, or `"unknown"` on error. -/
def get_whoami (env : Env) : String := (env.whoamiRaw.map pyStrip).getD "unknown"

/-- `SSHWorker._switch_to_root` (main_gui.py:174-189): fails unless the
password prompt pattern was observed; then runs the candidate loop. -/
def switch_to_root (env : Env) (passwords : List String) : Bool :=
  env.promptSeen && (suLoopTrace env.suRead passwords 0).1

/-! ## Command execution: `SSHWorker._execute_commands` -/

/-- `SSHWorker._execute_commands` (main_gui.py:191-207): every command is
attempted in order; a per-command failure (`except: all_ok = False`) does not
stop the loop.  Returns the list of attempted commands and the `all_ok`
flag (`env.cmdFails i` tells whether the `i`-th command raised). -/
def execTrace (fails : Nat → Bool) : List String → Nat → List String × Bool
  | [], _ => ([], true)
  | c :: cs, i =>
    ((c :: (execTrace fails cs (i + 1)).1), (!(fails i)) && (execTrace fails cs (i + 1)).2)

theorem execTrace_attempts_all (fails : Nat → Bool) :
    ∀ (cmds : List String) (i : Nat), (execTrace fails cmds i).1 = cmds := by
  intro cmds
  induction cmds with
  | nil => intro i; rfl
  | cons c cs ih => intro i; simp [execTrace, ih]

/-! ## The per-host task statuses and the worker run -/

/-- `TaskStatus` (main_gui.py:65-76). -/
inductive TaskStatus
  | waiting
  | running
  | success
  | failLogin
  | failRoot
  | failCmd
  | stopped
deriving DecidableEq

/-- The status reached by the command phase (main_gui.py:134-137):
`SUCCESS` when every command ran cleanly, `FAIL_CMD` otherwise. -/
def cmdStatus (env : Env) (cmds : List String) : TaskStatus :=
  if (execTrace env.cmdFails cmds 0).2 then TaskStatus.success else TaskStatus.failCmd

/-- The fields of a host record that the worker reads
(main_gui.py:80-84). -/
structure HostInfo where
  user : String
  pwd : RawCred
  root_pwd : RawCred

/-- The `defaults` section of the configuration that the worker reads
(main_gui.py:88,108-112). -/
structure Defaults where
  user : Option String
  login_passwords : RawCred
  root_passwords : RawCred

/-- `final_user` (main_gui.py:108): the host user when truthy (non-empty),
else the configured default (falling back to `root`), stripped. -/
def final_user (h : HostInfo) (d : Defaults) : String :=
  if h.user ≠ "" then pyStrip h.user else pyStrip (d.user.getD "root")

/-- The observable outcome of one `SSHWorker.run`. -/
structure RunResult where
  status : TaskStatus
  connectAttempts : Nat
  ranWhoami : Bool
  triedEscalation : Bool
deriving DecidableEq

/-- `SSHWorker.run` (main_gui.py:104-144): resolve credentials, connect,
decide whether escalation is needed (skipped when the resolved user is the
literal `root`, or when the `whoami` output contains `root`
case-insensitively), escalate if needed, then run the commands.  Terminal
status: `FAIL_LOGIN` when the connect loop fails, `FAIL_ROOT` when
escalation fails, else `SUCCESS`/`FAIL_CMD` from the command phase. -/
def SSHWorker.run (env : Env) (h : HostInfo) (d : Defaults) (cmds : List String) : RunResult :=
  if !(connectLoop env.auth (resolveCreds h.pwd d.login_passwords)).2 then
    ⟨TaskStatus.failLogin, (connectLoop env.auth (resolveCreds h.pwd d.login_passwords)).1,
      false, false⟩
  else if final_user h d = "root" then
    ⟨cmdStatus env cmds, (connectLoop env.auth (resolveCreds h.pwd d.login_passwords)).1,
      false, false⟩
  else if containsStr (pyLower (get_whoami env)) "root" then
    ⟨cmdStatus env cmds, (connectLoop env.auth (resolveCreds h.pwd d.login_passwords)).1,
      true, false⟩
  else if switch_to_root env (resolveCreds h.root_pwd d.root_passwords) then
    ⟨cmdStatus env cmds, (connectLoop env.auth (resolveCreds h.pwd d.login_passwords)).1,
      true, true⟩
  else
    ⟨TaskStatus.failRoot, (connectLoop env.auth (resolveCreds h.pwd d.login_passwords)).1,
      true, true⟩

/-! ## Interactive command output: sentinel, read loop, extraction -/

/-- The fixed sentinel of `_execute_commands` (main_gui.py:198):
`marker = "CMD_END"` for every command and every host. -/
def marker : String := "CMD_END"

/-- The line sent to the interactive shell for one command
(main_gui.py:199): `f"{cmd}; echo {marker}\n"`. -/
def sentLine (cmd : String) : String := cmd ++ "; echo " ++ marker ++ "\n"

/-- Left-to-right, non-overlapping removal of every occurrence of the
non-empty pattern, one scanned character per step; `skip` counts pattern
characters still to be consumed after a match was found. -/
def removeAllGo (pat : List Char) (skip : Nat) : List Char → List Char
  | [] => []
  | c :: cs =>
    match skip with
    | k + 1 => removeAllGo pat k cs
    | 0 =>
      if pat.isPrefixOf (c :: cs) then removeAllGo pat (pat.length - 1) cs
      else c :: removeAllGo pat 0 cs

/-- Python `s.replace(pat, "")`: delete every (left-to-right,
non-overlapping) occurrence of `pat`. -/
def removeAllStr (pat s : String) : String :=
  match pat.data with
  | [] => s
  | _ :: _ => String.mk (removeAllGo pat.data 0 s.data)

/-- The output extraction of `_execute_commands` (main_gui.py:201):
`raw.replace(f"{cmd}; echo {marker}", "").replace(marker, "").strip()`. -/
def extractOutput (cmd raw : String) : String :=
  pyStrip (removeAllStr marker (removeAllStr (cmd ++ "; echo " ++ marker) raw))

/-- `SSHWorker._read_shell` (main_gui.py:163-172) for a literal pattern:
accumulate received chunks; after each chunk, if the buffer cleaned of
color/clear escapes contains the pattern, return the (raw) buffer; when the
chunk sequence is exhausted (the timeout path) return whatever accumulated. -/
def readShellGo (pat : String) (buf : String) : List String → String
  | [] => buf
  | c :: cs =>
    if containsStr (stripAnsi (buf ++ c)) pat then buf ++ c
    else readShellGo pat (buf ++ c) cs

/-- `_read_shell` starting from an empty buffer. -/
def read_shell (pat : String) (chunks : List String) : String := readShellGo pat "" chunks

theorem removeAllGo_of_not_hasSub (pat : List Char) :
    ∀ (l : List Char), hasSub pat l = false → removeAllGo pat 0 l = l := by
  intro l
  induction l with
  | nil => intro _; rfl
  | cons c cs ih =>
    intro h
    rw [hasSub, Bool.or_eq_false_iff] at h
    rw [removeAllGo, if_neg (by simp [h.1]), ih h.2]

/-- If the captured text contains no occurrence of the pattern, removal is
the identity: only actual occurrences are deleted. -/
theorem removeAllStr_of_not_contains (pat s : String) (h : containsStr s pat = false) :
    removeAllStr pat s = s := by
  unfold removeAllStr
  cases hp : pat.data with
  | nil => rfl
  | cons p ps =>
    rw [containsStr, hp] at h
    show String.mk (removeAllGo (p :: ps) 0 s.data) = s
    rw [removeAllGo_of_not_hasSub (p :: ps) s.data h]

/-! ## The dispatch loop: `ModernGUI.run_thread` and the stop flag -/

/-- The dispatch loop of `run_thread` (main_gui.py:577-588) checks the shared
`stop_flag` once per host, before submitting it, and breaks out of the loop
when the flag is set; `stop i` is the flag value read at iteration `i`.
`dispatchCountAux stop i fuel` counts how many of the remaining `fuel` hosts
(starting at iteration `i`) get submitted. -/
def dispatchCountAux (stop : Nat → Bool) : Nat → Nat → Nat
  | _, 0 => 0
  | i, fuel + 1 => if stop i then 0 else dispatchCountAux stop (i + 1) fuel + 1

/-- How many of `n` selected hosts are dispatched before the loop stops. -/
def dispatchCount (stop : Nat → Bool) (n : Nat) : Nat := dispatchCountAux stop 0 n

/-- The ordered status history of host `i` out of `n` selected hosts:
`execute_targets` (main_gui.py:491-492) sets every selected host to
`WAITING`; a dispatched worker sets `RUNNING` (main_gui.py:105) and then its
terminal status (`outcome i`); a host that is never dispatched keeps
`WAITING` — nothing in `run_thread` touches it after the loop breaks. -/
def hostHistory (stop : Nat → Bool) (outcome : Nat → TaskStatus) (n i : Nat) :
    List TaskStatus :=
  if i < dispatchCount stop n then [TaskStatus.waiting, TaskStatus.running, outcome i]
  else [TaskStatus.waiting]

/-- The status of host `i` after the batch ends. -/
def finalStatus (stop : Nat → Bool) (outcome : Nat → TaskStatus) (n i : Nat) : TaskStatus :=
  if i < dispatchCount stop n then outcome i else TaskStatus.waiting

theorem dispatchCountAux_stop_false (stop : Nat → Bool) :
    ∀ (fuel i k : Nat), k < dispatchCountAux stop i fuel → stop (i + k) = false := by
  intro fuel
  induction fuel with
  | zero => intro i k hk; exact absurd hk (by simp [dispatchCountAux])
  | succ f ih =>
    intro i k hk
    rw [dispatchCountAux] at hk
    by_cases hs : stop i
    · rw [if_pos hs] at hk; exact absurd hk (Nat.not_lt_zero k)
    · rw [if_neg hs] at hk
      cases k with
      | zero => simpa using hs
      | succ k' =>
        have := ih (i + 1) k' (Nat.lt_of_succ_lt_succ hk)
        have harith : i + 1 + k' = i + (k' + 1) := by omega
        rw [harith] at this
        exact this

/-- Once the flag is set at iteration `j`, at most `j` hosts are
dispatched: host `j` and all later ones never get submitted. -/
theorem dispatchCount_le_of_stop (stop : Nat → Bool) (n j : Nat) (hj : stop j = true) :
    dispatchCount stop n ≤ j := by
  by_contra hlt
  push_neg at hlt
  have := dispatchCountAux_stop_false stop n 0 j hlt
  simp only [Nat.zero_add] at this
  rw [this] at hj
  exact Bool.false_ne_true hj

/-- Every worker run ends in one of the four normal terminal statuses;
`Stopped` is never produced by a worker. -/
theorem run_status_terminal (env : Env) (h : HostInfo) (d : Defaults) (cmds : List String) :
    (SSHWorker.run env h d cmds).status ∈
      [TaskStatus.success, TaskStatus.failLogin, TaskStatus.failRoot, TaskStatus.failCmd] := by
  unfold SSHWorker.run cmdStatus
  split
  · simp
  · split
    · split <;> simp
    · split
      · split <;> simp
      · split
        · split <;> simp
        · simp

/-! ## The ANSI renderer: `AnsiColorHandler.insert_ansi_text` -/

/-- One part of `re.split(r'(\x1b\[[0-9;]*[a-zA-Z])', content)`
(main_gui.py:223): either plain text or a captured escape sequence with its
parameter string and final letter. -/
inductive AnsiToken
  | text (s : String)
  | esc (params : String) (fin : Char)
deriving DecidableEq

/-- Prepend one literal character to a token list, merging with a leading
text token (consecutive plain characters form one split part). -/
def pushText (c : Char) : List AnsiToken → List AnsiToken
  | AnsiToken.text s :: rest => AnsiToken.text (String.mk (c :: s.data)) :: rest
  | toks => AnsiToken.text (String.mk [c]) :: toks

/-- Prepend several literal characters. -/
def pushTexts (cs : List Char) (ts : List AnsiToken) : List AnsiToken :=
  cs.foldr pushText ts

/-- Character-level scan equivalent to the renderer's
`re.split(r'(\x1b\[[0-9;]*[a-zA-Z])', content)` with empty parts dropped:
a full `ESC [ params letter` group becomes an `esc` token; everything else
is plain text. -/
def tokenScan : CsiState → List Char → List AnsiToken
  | .normal, [] => []
  | .afterEsc, [] => pushText escChar []
  | .inParams rp, [] => pushTexts (escChar :: '[' :: rp.reverse) []
  | .normal, c :: cs =>
    if c = escChar then tokenScan .afterEsc cs else pushText c (tokenScan .normal cs)
  | .afterEsc, c :: cs =>
    if c = '[' then tokenScan (.inParams []) cs
    else if c = escChar then pushText escChar (tokenScan .afterEsc cs)
    else pushText escChar (pushText c (tokenScan .normal cs))
  | .inParams rp, c :: cs =>
    if isParamChar c then tokenScan (.inParams (c :: rp)) cs
    else if c.isAlpha then AnsiToken.esc (String.mk rp.reverse) c :: tokenScan .normal cs
    else if c = escChar then pushTexts (escChar :: '[' :: rp.reverse) (tokenScan .afterEsc cs)
    else pushTexts (escChar :: '[' :: rp.reverse ++ [c]) (tokenScan .normal cs)

/-- `self.color_map` of `AnsiColorHandler` (main_gui.py:215). -/
def colorMap : List (String × String) :=
  [("30", "black"), ("31", "red"), ("32", "#008000"), ("33", "#B8860B"),
   ("34", "#0000FF"), ("35", "#800080"), ("36", "#008080"), ("37", "gray"),
   ("90", "gray"), ("91", "#FF4500"), ("92", "#32CD32"), ("93", "#FFD700"),
   ("94", "#1E90FF"), ("95", "#FF1493"), ("96", "#00CED1"), ("97", "black"),
   ("0", "black"), ("00", "black")]

/-- The keys of `color_map` (membership test `c in self.color_map`). -/
def colorKeys : List String := colorMap.map Prod.fst

/-- The configured color of a tag's code. -/
def lookupColor (c : String) : Option String := colorMap.lookup c

/-- The per-code update of `current_tags` (main_gui.py:230-235): `0`/`00`
clears all tags; `1`/`01` appends `bold`; a key of `color_map` drops any
`fg_` tag and appends its own; any other code leaves the tags unchanged. -/
def applyCode (tags : List String) (c : String) : List String :=
  if c = "0" ∨ c = "00" then []
  else if c = "1" ∨ c = "01" then tags ++ ["bold"]
  else if colorKeys.contains c then
    (tags.filter (fun t => !(pyStartsWith t "fg_"))) ++ ["fg_" ++ c]
  else tags

/-- Split the parameter string on `;` (Python `part[2:-1].split(';')`),
keeping empty pieces. -/
def splitSemisAux (acc : List Char) : List Char → List String
  | [] => [String.mk acc.reverse]
  | c :: cs =>
    if c = ';' then String.mk acc.reverse :: splitSemisAux [] cs
    else splitSemisAux (c :: acc) cs

/-- Python `params.split(';')`. -/
def splitSemis (params : String) : List String := splitSemisAux [] params.data

/-- Apply every code of an `m`-terminated escape to the current tags. -/
def applyCodes (tags : List String) (params : String) : List String :=
  (splitSemis params).foldl applyCode tags

/-- The literal text of one split part: a captured escape group is the
string `ESC [ params fin`; a non-captured piece is its own text. -/
def partString : AnsiToken → String
  | AnsiToken.text s => s
  | AnsiToken.esc p fin => String.mk (escChar :: '[' :: (p.data ++ [fin]))

/-- The non-empty parts of `re.split(r'(\x1b\[[0-9;]*[a-zA-Z])', content)`,
in order.  (`re.split` also yields empty text pieces between adjacent
matches and at the ends; the loop skips those via `if not part: continue`,
and `tokenScan` never produces an empty text token.) -/
def splitAnsiParts (l : List Char) : List String :=
  (tokenScan CsiState.normal l).map partString

/-- The last character of a part, for Python `part.endswith('m')` /
`part.endswith('K')`. -/
def lastChar (s : String) : Option Char := s.data.getLast?

/-- The part loop of `insert_ansi_text` (main_gui.py:225-237), dispatching
exactly as the program does on the raw part string: an empty part is
skipped; a part that starts with `ESC [` — whether a captured escape group
or a plain piece beginning with an unterminated escape remnant — inserts
nothing: if it ends with `m` its `part[2:-1]` codes update the tags, if it
ends with `K` (or anything else) it is discarded outright, silently
swallowing any trailing text inside the part; only a part not starting with
`ESC [` is emitted under the current tags. -/
def renderParts : List String → List String → List (String × List String)
  | [], _ => []
  | part :: rest, tags =>
    if part = "" then renderParts rest tags
    else if pyStartsWith part "\x1b[" then
      if lastChar part = Option.some 'm' then
        renderParts rest (applyCodes tags (String.mk ((part.data.drop 2).dropLast)))
      else if lastChar part = Option.some 'K' then renderParts rest tags
      else renderParts rest tags
    else (part, tags) :: renderParts rest tags

/-- `AnsiColorHandler.insert_ansi_text` (main_gui.py:222-237): the ordered
sequence of (text span, tag list) pairs inserted into the widget. -/
def insert_ansi_text (content : String) : List (String × List String) :=
  renderParts (splitAnsiParts content.data) []

/-- Faithfulness of the remnant handling: a split part that begins with an
unterminated `ESC [` remnant is silently dropped — even when it carries
genuine trailing text such as `Hello` — and a remnant part that happens to
end in `m` still has its `part[2:-1]` codes applied. -/
theorem insert_ansi_text_drops_esc_remnant :
    insert_ansi_text "\x1b[0m\x1b[4" = [] ∧
    insert_ansi_text "\x1b[0m\x1b[3 1;31mHello" = [] ∧
    insert_ansi_text "\x1b[0;31;@m\x1b[1mX" = [("X", ["fg_31", "bold"])] := by
  decide

/-! ## Claim theorems -/

theorem filterMap_normItem_eq : ∀ (items : List (Option PyScalar)),
    items.filterMap normItem =
      ((items.filterMap id).map (fun v => pyStrip (pyStr v))).filter (fun s => !(s == "")) := by
  intro items
  induction items with
  | nil => rfl
  | cons it rest ih =>
    cases it with
    | none => simpa [normItem] using ih
    | some v =>
      by_cases hv : pyStrip (pyStr v) = ""
      · simp [normItem, hv, ih]
      · simp [normItem, hv, ih]

/-- Claim C1: credential normalization maps each non-`None` element to its
trimmed textual form, keeps only non-empty results, and preserves order
(absent input and a single scalar being the empty and the singleton list
cases); the resolved sequence is the normalized host sequence concatenated
before the normalized default sequence, deduplicated keeping the first
occurrence of each value, so the deduplicated host-side candidates form a
prefix of the resolved sequence. -/
theorem claim_C1_credential_resolution :
    (ensure_str_list RawCred.absent = []) ∧
    (∀ v, ensure_str_list (RawCred.scalar v) = ensure_str_list (RawCred.list [Option.some v])) ∧
    (∀ items, ensure_str_list (RawCred.list items) =
      ((items.filterMap id).map (fun v => pyStrip (pyStr v))).filter (fun s => !(s == ""))) ∧
    (∀ hp dp, resolveCreds hp dp = dedupFirst (ensure_str_list hp ++ ensure_str_list dp)) ∧
    (∀ l, (dedupFirst l).Nodup) ∧
    (∀ l, List.Sublist (dedupFirst l) l) ∧
    (∀ l v, v ∈ dedupFirst l ↔ v ∈ l) ∧
    (∀ hp dp, List.IsPrefix (dedupFirst (ensure_str_list hp)) (resolveCreds hp dp)) := by
  refine ⟨rfl, fun v => rfl, filterMap_normItem_eq, fun hp dp => rfl,
    fun l => dedupFirstAux_nodup l [], fun l => dedupFirstAux_sublist l [], ?_, ?_⟩
  · intro l v
    rw [dedupFirst, dedupFirstAux_mem]
    simp
  · intro hp dp
    exact dedupFirst_append_isPrefix (ensure_str_list hp) (ensure_str_list dp)

/-- Claim C2: with the correct password at zero-based index `k` (all earlier
candidates failing for any reason — authentication rejection or any other
error class alike), the connect loop makes exactly `k + 1` attempts and
succeeds; when no candidate succeeds, it makes exactly `N` attempts and
returns failure (the `AuthExhausted` outcome). -/
theorem claim_C2_auth_attempt_count :
    (∀ (auth : String → ConnOutcome) (pwds : List String) (k : Nat) (hk : k < pwds.length),
        (∀ i (hi : i < k), auth (pwds.get ⟨i, Nat.lt_trans hi hk⟩) ≠ ConnOutcome.ok) →
        auth (pwds.get ⟨k, hk⟩) = ConnOutcome.ok →
        connectLoop auth pwds = (k + 1, true)) ∧
    (∀ (auth : String → ConnOutcome) (pwds : List String),
        (∀ p ∈ pwds, auth p ≠ ConnOutcome.ok) →
        connectLoop auth pwds = (pwds.length, false)) :=
  ⟨connectLoop_success_at, connectLoop_exhaust⟩

/-- A concrete authenticator: only the password `"b"` is accepted; every
other attempt ends in a non-authentication error. -/
def authEx : String → ConnOutcome :=
  fun p => if p = "b" then ConnOutcome.ok else ConnOutcome.otherError

theorem claim_C2_witness :
    connectLoop authEx ["a", "b", "c"] = (2, true) ∧
    connectLoop authEx ["a", "c"] = (2, false) := by
  constructor
  · exact claim_C2_auth_attempt_count.1 authEx ["a", "b", "c"] 1 (by decide)
      (fun i hi => by
        have h0 : i = 0 := Nat.lt_one_iff.mp hi
        subst h0
        show authEx (["a", "b", "c"].get ⟨0, by decide⟩) ≠ ConnOutcome.ok
        decide)
      (by decide)
  · exact claim_C2_auth_attempt_count.2 authEx ["a", "c"] (by decide)

/-- A stop flag that is observed set from iteration 2 on (set after 2 of 5
tasks were dispatched), and workers that all end in `SUCCESS`. -/
def stopEx : Nat → Bool := fun i => decide (2 ≤ i)

def outcomeEx : Nat → TaskStatus := fun _ => TaskStatus.success

/-- Claim C3 counterexample: with 5 selected hosts and the stop flag set
from the third dispatch check on, host 3 is never dispatched, yet its status
stays `WAITING` — it is never marked `STOPPED` (the `break` in `run_thread`
marks nothing, and `TaskStatus.STOPPED` is assigned nowhere). -/
theorem claim_C3_counterexample :
    stopEx 2 = true ∧
    dispatchCount stopEx 5 = 2 ∧
    finalStatus stopEx outcomeEx 5 3 = TaskStatus.waiting ∧
    ¬(finalStatus stopEx outcomeEx 5 3 = TaskStatus.stopped) ∧
    TaskStatus.stopped ∉ hostHistory stopEx outcomeEx 5 3 := by
  decide

/-- Claim C3 (amended): once the stop flag is set at or before a host's
dispatch check, that host is never dispatched — it keeps status `WAITING`
(not `STOPPED`) and never enters `RUNNING`; every host dispatched before the
flag was observed runs to completion, and a worker's terminal status is
always one of the four normal terminal statuses. -/
theorem claim_C3_amended :
    (∀ (stop : Nat → Bool) (outcome : Nat → TaskStatus) (n i j : Nat),
        stop j = true → j ≤ i →
        dispatchCount stop n ≤ i ∧
        hostHistory stop outcome n i = [TaskStatus.waiting] ∧
        TaskStatus.running ∉ hostHistory stop outcome n i ∧
        finalStatus stop outcome n i = TaskStatus.waiting) ∧
    (∀ (stop : Nat → Bool) (outcome : Nat → TaskStatus) (n i : Nat),
        i < dispatchCount stop n →
        hostHistory stop outcome n i =
          [TaskStatus.waiting, TaskStatus.running, outcome i] ∧
        finalStatus stop outcome n i = outcome i) ∧
    (∀ (env : Env) (h : HostInfo) (d : Defaults) (cmds : List String),
        (SSHWorker.run env h d cmds).status ∈
          [TaskStatus.success, TaskStatus.failLogin, TaskStatus.failRoot,
           TaskStatus.failCmd]) := by
  refine ⟨?_, ?_, run_status_terminal⟩
  · intro stop outcome n i j hj hji
    have hle : dispatchCount stop n ≤ i :=
      le_trans (dispatchCount_le_of_stop stop n j hj) hji
    have hni : ¬(i < dispatchCount stop n) := not_lt.mpr hle
    refine ⟨hle, ?_, ?_, ?_⟩
    · rw [hostHistory, if_neg hni]
    · rw [hostHistory, if_neg hni]; simp
    · rw [finalStatus, if_neg hni]
  · intro stop outcome n i hi
    exact ⟨by rw [hostHistory, if_pos hi], by rw [finalStatus, if_pos hi]⟩

theorem claim_C3_amended_witness :
    (dispatchCount stopEx 5 ≤ 3 ∧ finalStatus stopEx outcomeEx 5 3 = TaskStatus.waiting ∧
      TaskStatus.running ∉ hostHistory stopEx outcomeEx 5 3) ∧
    (hostHistory stopEx outcomeEx 5 0 =
      [TaskStatus.waiting, TaskStatus.running, outcomeEx 0] ∧
     finalStatus stopEx outcomeEx 5 0 = outcomeEx 0) := by
  constructor
  · have h := claim_C3_amended.1 stopEx outcomeEx 5 3 2 (by decide) (by decide)
    exact ⟨h.1, h.2.2.2, h.2.2.1⟩
  · exact claim_C3_amended.2.1 stopEx outcomeEx 5 0 (by decide)

/-- Claim C4: the escalation outcome test succeeds exactly when the chunk,
cleaned of color/clear escapes, contains the `#` marker and no localized
failure keyword; `"host:~ # "` is a success, `"su: Authentication failure"`
is not; and a failed outcome makes the loop re-issue `su -` and continue
with the next untried candidate. -/
theorem claim_C4_escalation_outcome :
    (∀ chunk, suSuccessChunk chunk =
      (containsStr (stripAnsi chunk) "#" && !(hasFailKeyword (stripAnsi chunk)))) ∧
    suSuccessChunk "host:~ # " = true ∧
    suSuccessChunk "su: Authentication failure" = false ∧
    (∀ (reads : Nat → String) (p : String) (rest : List String) (i : Nat),
        suSuccessChunk (reads i) = false →
        suLoopTrace reads (p :: rest) i =
          ((suLoopTrace reads rest (i + 1)).1,
            SuAction.sendPwd p :: SuAction.resendSu ::
              (suLoopTrace reads rest (i + 1)).2)) := by
  refine ⟨fun chunk => rfl, by decide, by decide, ?_⟩
  intro reads p rest i hfail
  rw [suLoopTrace, if_neg (by simp [hfail])]

/-- Shell reads that always answer with an authentication failure. -/
def suReadsEx : Nat → String := fun _ => "su: Authentication failure"

theorem claim_C4_witness :
    suSuccessChunk (suReadsEx 0) = false ∧
    suLoopTrace suReadsEx ["pw1", "pw2"] 0 =
      (false, [SuAction.sendPwd "pw1", SuAction.resendSu,
               SuAction.sendPwd "pw2", SuAction.resendSu]) := by
  refine ⟨by decide, ?_⟩
  rw [claim_C4_escalation_outcome.2.2.2 suReadsEx "pw1" ["pw2"] 0 (by decide)]
  rw [claim_C4_escalation_outcome.2.2.2 suReadsEx "pw2" [] 1 (by decide)]
  rfl

/-- Claim C5: when the merged login password sequence is empty, the connect
loop makes zero attempts and fails, and the worker ends in the login-failure
terminal status. -/
theorem claim_C5_no_credentials (env : Env) (h : HostInfo) (d : Defaults)
    (cmds : List String)
    (hempty : resolveCreds h.pwd d.login_passwords = []) :
    connectLoop env.auth (resolveCreds h.pwd d.login_passwords) = (0, false) ∧
    (SSHWorker.run env h d cmds).status = TaskStatus.failLogin ∧
    (SSHWorker.run env h d cmds).connectAttempts = 0 := by
  refine ⟨by rw [hempty]; rfl, ?_, ?_⟩ <;>
    simp [SSHWorker.run, hempty, connectLoop]

/-- An environment whose connect attempts would all succeed — irrelevant,
since no attempt is made when no credential is resolved. -/
def envEx : Env :=
  ⟨fun _ => ConnOutcome.ok, Option.some "nonroot", true, fun _ => "", fun _ => false⟩

def hostEmptyEx : HostInfo := ⟨"alice", RawCred.absent, RawCred.absent⟩

def dfltEmptyEx : Defaults := ⟨Option.none, RawCred.absent, RawCred.absent⟩

theorem claim_C5_witness :
    resolveCreds hostEmptyEx.pwd dfltEmptyEx.login_passwords = [] ∧
    (SSHWorker.run envEx hostEmptyEx dfltEmptyEx ["whoami"]).status =
      TaskStatus.failLogin ∧
    (SSHWorker.run envEx hostEmptyEx dfltEmptyEx ["whoami"]).connectAttempts = 0 := by
  refine ⟨by decide, ?_, ?_⟩
  · exact (claim_C5_no_credentials envEx hostEmptyEx dfltEmptyEx ["whoami"] (by decide)).2.1
  · exact (claim_C5_no_credentials envEx hostEmptyEx dfltEmptyEx ["whoami"] (by decide)).2.2

/-- The sentinel line sent for a command, as a single string. -/
theorem sentLine_eq (cmd : String) : sentLine cmd = cmd ++ "; echo CMD_END\n" := by
  show ((cmd ++ "; echo ") ++ marker) ++ "\n" = cmd ++ "; echo CMD_END\n"
  rw [String.append_assoc, String.append_assoc]
  congr 1

/-- Claim C6: interactive execution sends the command followed by a sentinel
echo, reads chunks until the (escape-cleaned) buffer contains the sentinel —
returning the accumulated buffer on timeout — and extraction removes the
echoed command line and the sentinel token and strips the rest; on the
spec's example it yields `"file1"`. -/
theorem claim_C6_output_extraction :
    (∀ cmd, sentLine cmd = cmd ++ "; echo CMD_END\n") ∧
    (∀ pat buf c cs, containsStr (stripAnsi (buf ++ c)) pat = true →
        readShellGo pat buf (c :: cs) = buf ++ c) ∧
    (∀ pat buf, readShellGo pat buf [] = buf) ∧
    (∀ cmd raw, extractOutput cmd raw =
        pyStrip (removeAllStr marker (removeAllStr (cmd ++ "; echo " ++ marker) raw))) ∧
    extractOutput "ls" "ls; echo CMD_END\nfile1\nCMD_END\n" = "file1" := by
  refine ⟨sentLine_eq, ?_, fun pat buf => rfl, fun cmd raw => rfl, by decide⟩
  intro pat buf c cs hfound
  rw [readShellGo, if_pos hfound]

theorem claim_C6_witness :
    containsStr (stripAnsi ("" ++ "file1\nCMD_END\n")) "CMD_END" = true ∧
    readShellGo "CMD_END" "" ["file1\nCMD_END\n", "unread tail"] = "" ++ "file1\nCMD_END\n" := by
  exact ⟨by decide,
    claim_C6_output_extraction.2.1 "CMD_END" "" "file1\nCMD_END\n" ["unread tail"] (by decide)⟩

/-- Claim C7: every command in the list is attempted regardless of earlier
failures; when the worker reaches the command phase (connect succeeded and
escalation succeeded or was skipped), any failed command makes the host end
in the degraded `FAIL_CMD` status, and a clean run ends in `SUCCESS`. -/
theorem claim_C7_degraded_commands (env : Env) (h : HostInfo) (d : Defaults)
    (cmds : List String)
    (hconn : (connectLoop env.auth (resolveCreds h.pwd d.login_passwords)).2 = true)
    (hesc : final_user h d = "root" ∨
            containsStr (pyLower (get_whoami env)) "root" = true ∨
            switch_to_root env (resolveCreds h.root_pwd d.root_passwords) = true) :
    (execTrace env.cmdFails cmds 0).1 = cmds ∧
    ((execTrace env.cmdFails cmds 0).2 = false →
      (SSHWorker.run env h d cmds).status = TaskStatus.failCmd) ∧
    ((execTrace env.cmdFails cmds 0).2 = true →
      (SSHWorker.run env h d cmds).status = TaskStatus.success) := by
  have hrun : (SSHWorker.run env h d cmds).status = cmdStatus env cmds := by
    rcases hesc with h1 | h2 | h3
    · simp [SSHWorker.run, hconn, h1]
    · by_cases h1 : final_user h d = "root"
      · simp [SSHWorker.run, hconn, h1]
      · simp [SSHWorker.run, hconn, h1, h2]
    · by_cases h1 : final_user h d = "root"
      · simp [SSHWorker.run, hconn, h1]
      · by_cases h2 : containsStr (pyLower (get_whoami env)) "root" = true
        · simp [SSHWorker.run, hconn, h1, h2]
        · simp [SSHWorker.run, hconn, h1, h2, h3]
  refine ⟨execTrace_attempts_all env.cmdFails cmds 0, ?_, ?_⟩
  · intro hfail; rw [hrun]; simp [cmdStatus, hfail]
  · intro hok; rw [hrun]; simp [cmdStatus, hok]

/-- An environment where the second of three commands raises. -/
def envCmdFailEx : Env :=
  ⟨fun _ => ConnOutcome.ok, Option.none, true, fun _ => "", fun i => i == 1⟩

def hostRootEx : HostInfo := ⟨"root", RawCred.scalar (PyScalar.s "p"), RawCred.absent⟩

theorem claim_C7_witness :
    (execTrace envCmdFailEx.cmdFails ["c0", "c1", "c2"] 0).1 = ["c0", "c1", "c2"] ∧
    (SSHWorker.run envCmdFailEx hostRootEx dfltEmptyEx ["c0", "c1", "c2"]).status =
      TaskStatus.failCmd := by
  constructor
  · exact (claim_C7_degraded_commands envCmdFailEx hostRootEx dfltEmptyEx ["c0", "c1", "c2"]
      (by decide) (Or.inl (by decide))).1
  · exact (claim_C7_degraded_commands envCmdFailEx hostRootEx dfltEmptyEx ["c0", "c1", "c2"]
      (by decide) (Or.inl (by decide))).2.1 (by decide)

/-- Claim C9: escalation is skipped exactly when the resolved account name
is the literal `root` (in which case `whoami` is never run) or when the
`whoami` output contains `root` as a case-insensitive substring; since
`"nonroot"` contains `"root"`, a `nonroot` account is treated as already
privileged and the switch-user sequence is never attempted. -/
theorem claim_C9_root_substring (env : Env) (h : HostInfo) (d : Defaults)
    (cmds : List String)
    (hconn : (connectLoop env.auth (resolveCreds h.pwd d.login_passwords)).2 = true) :
    (final_user h d = "root" →
      (SSHWorker.run env h d cmds).ranWhoami = false ∧
      (SSHWorker.run env h d cmds).triedEscalation = false) ∧
    (final_user h d ≠ "root" →
      (SSHWorker.run env h d cmds).ranWhoami = true ∧
      ((SSHWorker.run env h d cmds).triedEscalation = false ↔
        containsStr (pyLower (get_whoami env)) "root" = true)) ∧
    containsStr "nonroot" "root" = true := by
  refine ⟨?_, ?_, by decide⟩
  · intro hr
    constructor <;> simp [SSHWorker.run, hconn, hr]
  · intro hr
    by_cases hw : containsStr (pyLower (get_whoami env)) "root" = true
    · constructor <;> simp [SSHWorker.run, hconn, hr, hw]
    · by_cases hs : switch_to_root env (resolveCreds h.root_pwd d.root_passwords) = true
      · constructor
        · simp [SSHWorker.run, hconn, hr, hw, hs]
        · simp [SSHWorker.run, hconn, hr, hw, hs]
      · constructor
        · simp [SSHWorker.run, hconn, hr, hw, hs]
        · simp [SSHWorker.run, hconn, hr, hw, hs]

/-- An environment where `whoami` reports `nonroot`. -/
def envNonrootEx : Env :=
  ⟨fun _ => ConnOutcome.ok, Option.some "nonroot", true, fun _ => "", fun _ => false⟩

def hostAliceEx : HostInfo := ⟨"alice", RawCred.scalar (PyScalar.s "p"), RawCred.absent⟩

theorem claim_C9_witness :
    final_user hostAliceEx dfltEmptyEx ≠ "root" ∧
    get_whoami envNonrootEx = "nonroot" ∧
    (SSHWorker.run envNonrootEx hostAliceEx dfltEmptyEx []).ranWhoami = true ∧
    (SSHWorker.run envNonrootEx hostAliceEx dfltEmptyEx []).triedEscalation = false := by
  refine ⟨by decide, by decide, ?_, ?_⟩
  · exact ((claim_C9_root_substring envNonrootEx hostAliceEx dfltEmptyEx []
      (by decide)).2.1 (by decide)).1
  · exact ((claim_C9_root_substring envNonrootEx hostAliceEx dfltEmptyEx []
      (by decide)).2.1 (by decide)).2.mpr (by decide)

/-- Claim C8: the renderer keeps a current style across spans — a reset code
(`0`/`00`) clears all tags, a bold code (`1`/`01`) appends `bold` without
clearing the color, a color code replaces only the `fg_` tag (keeping
`bold`), unrecognized codes change nothing; a part starting with `ESC [`
that ends in `K` is discarded with no visible effect, one that ends in `m`
only updates the tags from its `part[2:-1]` codes, and a (non-empty) part
that does not start with `ESC [` — the program's own test for plain text —
is emitted under the current tags; on the spec's example the spans are
`"Hello"` in red and `" World"` unstyled. -/
theorem claim_C8_ansi_renderer :
    insert_ansi_text "\x1b[31mHello\x1b[0m World" =
      [("Hello", ["fg_31"]), (" World", [])] ∧
    lookupColor "31" = Option.some "red" ∧
    (∀ tags, applyCode tags "0" = [] ∧ applyCode tags "00" = []) ∧
    (∀ tags, applyCode tags "1" = tags ++ ["bold"] ∧
             applyCode tags "01" = tags ++ ["bold"]) ∧
    (∀ tags c, colorKeys.contains c = true → ¬(c = "0" ∨ c = "00") →
        applyCode tags c =
          tags.filter (fun t => !(pyStartsWith t "fg_")) ++ ["fg_" ++ c] ∧
        ("bold" ∈ tags → "bold" ∈ applyCode tags c)) ∧
    (∀ tags c, colorKeys.contains c = false → ¬(c = "0" ∨ c = "00") →
        ¬(c = "1" ∨ c = "01") → applyCode tags c = tags) ∧
    (∀ part rest tags, pyStartsWith part "\x1b[" = true →
        lastChar part = Option.some 'K' →
        renderParts (part :: rest) tags = renderParts rest tags) ∧
    (∀ part rest tags, pyStartsWith part "\x1b[" = true →
        lastChar part = Option.some 'm' →
        renderParts (part :: rest) tags =
          renderParts rest (applyCodes tags (String.mk ((part.data.drop 2).dropLast)))) ∧
    (∀ part rest tags, part ≠ "" → pyStartsWith part "\x1b[" = false →
        renderParts (part :: rest) tags = (part, tags) :: renderParts rest tags) := by
  refine ⟨by decide, by decide, ?_, ?_, ?_, ?_, ?_, ?_, ?_⟩
  · intro tags
    exact ⟨by simp [applyCode], by simp [applyCode]⟩
  · intro tags
    constructor <;> simp [applyCode]
  · intro tags c hc h0
    have h1 : ¬(c = "1" ∨ c = "01") := by
      rintro (rfl | rfl) <;> revert hc <;> decide
    have heq : applyCode tags c =
        tags.filter (fun t => !(pyStartsWith t "fg_")) ++ ["fg_" ++ c] := by
      unfold applyCode
      rw [if_neg h0, if_neg h1, if_pos hc]
    refine ⟨heq, ?_⟩
    intro hb
    rw [heq]
    refine List.mem_append_left _ (List.mem_filter.mpr ⟨hb, ?_⟩)
    decide
  · intro tags c hc h0 h1
    unfold applyCode
    rw [if_neg h0, if_neg h1, if_neg (by rw [hc]; exact Bool.false_ne_true)]
  · intro part rest tags hstart hK
    have hne : ¬(part = "") := by
      rintro rfl; exact absurd hstart (by decide)
    rw [renderParts, if_neg hne, if_pos hstart,
      if_neg (by rw [hK]; simp), if_pos hK]
  · intro part rest tags hstart hm
    have hne : ¬(part = "") := by
      rintro rfl; exact absurd hstart (by decide)
    rw [renderParts, if_neg hne, if_pos hstart, if_pos hm]
  · intro part rest tags hne hstart
    rw [renderParts, if_neg hne,
      if_neg (by rw [hstart]; exact Bool.false_ne_true)]

theorem claim_C8_witness :
    applyCode ["bold"] "31" = ["bold", "fg_31"] ∧
    ("bold" ∈ applyCode ["bold"] "31") ∧
    renderParts ["\x1b[2K", "Hi"] ["fg_31"] = [("Hi", ["fg_31"])] := by
  refine ⟨?_, ?_, ?_⟩
  · have h := (claim_C8_ansi_renderer.2.2.2.2.1 ["bold"] "31" (by decide)
      (by rintro (h | h) <;> exact absurd h (by decide))).1
    rw [h]
    decide
  · exact (claim_C8_ansi_renderer.2.2.2.2.1 ["bold"] "31" (by decide)
      (by rintro (h | h) <;> exact absurd h (by decide))).2 (by decide)
  · rw [claim_C8_ansi_renderer.2.2.2.2.2.2.1 "\x1b[2K" ["Hi"] ["fg_31"]
      (by decide) (by decide)]
    rw [claim_C8_ansi_renderer.2.2.2.2.2.2.2.2 "Hi" [] ["fg_31"]
      (by decide) (by decide)]
    rfl

/-- Claim C10: the interactive sentinel is the fixed string `CMD_END` for
every command (not unique per command); extraction deletes every occurrence
of the echoed command line and of the bare sentinel, so genuine output that
contains `CMD_END` is silently mutilated; the read loop stops as soon as the
buffer contains the sentinel, so a chunk of genuine output containing
`CMD_END` ends the read early; and removal only touches actual occurrences
(a pattern-free text is returned unchanged). -/
theorem claim_C10_sentinel_constant :
    marker = "CMD_END" ∧
    (∀ cmd, sentLine cmd = cmd ++ "; echo CMD_END\n") ∧
    extractOutput "ls" "ls; echo CMD_END\nbefore CMD_END after\nCMD_END\n" =
      "before  after" ∧
    read_shell "CMD_END" ["genuine output with CMD_END inside", "later data"] =
      "genuine output with CMD_END inside" ∧
    (∀ pat s, containsStr s pat = false → removeAllStr pat s = s) :=
  ⟨rfl, sentLine_eq, by decide, by decide, removeAllStr_of_not_contains⟩

theorem claim_C10_witness :
    containsStr "plain output" "CMD_END" = false ∧
    removeAllStr "CMD_END" "plain output" = "plain output" :=
  ⟨by decide,
    claim_C10_sentinel_constant.2.2.2.2 "CMD_END" "plain output" (by decide)⟩
